import Mathlib

/-!
# Verification of the legacy EBCDIC-to-ASCII file converter

A shallow embedding, in Lean 4, of the schema-directed decoder of the
`legacyfileconverter` repository: the copybook field model and size resolver
(`copybook_parser.py`), the per-usage byte decoders (`data_types/`), the record
walker (`conversion_engine.py`), the fixed-length record reader
(`ebcdic_reader.py`), and the dual-pass validation comparison and classifiers
(`validation_engine/`).

Conventions of the embedding:
* bytes are `Nat` values below 256; byte strings are `List Nat`;
* Python `int` is `Int`, Python `float` is modelled as `ℚ` (all the decoded
  values and tolerance comparisons exercised here are exact decimal fractions,
  where rational and IEEE-754 computation agree on every comparison performed);
* Python functions that can raise an uncaught exception are embedded with an
  `Option` result, `none` marking the raise;
* dictionaries are insertion-ordered association lists, as in Python.
-/

namespace LegacyConverter

/-! ## Basic character/string helpers mirroring the Python built-ins used -/

/-- Value of a list of decimal digit characters, most significant first
(the reading Python's `int()` performs on a digit string). -/
def digitsVal (cs : List Char) : Nat :=
  cs.foldl (fun a c => a * 10 + (c.toNat - '0'.toNat)) 0

/-- Python `str.isdigit()` over ASCII content: nonempty and all digits. -/
def pyIsDigit (cs : List Char) : Bool :=
  !cs.isEmpty && cs.all Char.isDigit

/-- Python `int(s)`: optional sign followed by at least one digit.
`none` models a `ValueError`. (Python also tolerates surrounding whitespace
and underscores; no call site here produces such strings.) -/
def pyIntOfString (s : String) : Option Int :=
  match s.toList with
  | '-' :: rest => if pyIsDigit rest then some (-(digitsVal rest : Int)) else none
  | '+' :: rest => if pyIsDigit rest then some (digitsVal rest : Int) else none
  | rest => if pyIsDigit rest then some (digitsVal rest : Int) else none

/-- Python `float(s)` on the strings this program produces:
optional sign, digits, optional `.` followed by digits, at least one digit in
all. `none` models a `ValueError`. (Scientific notation, `inf`/`nan` and
surrounding whitespace are accepted by Python but never arise here.) -/
def pyFloatOfString (s : String) : Option ℚ :=
  let (sgn, body) : Int × List Char :=
    match s.toList with
    | '-' :: rest => (-1, rest)
    | '+' :: rest => (1, rest)
    | rest => (1, rest)
  let intPart := body.takeWhile Char.isDigit
  match body.dropWhile Char.isDigit with
  | [] => if intPart.isEmpty then none else some (mkRat (sgn * digitsVal intPart) 1)
  | '.' :: frac =>
      if frac.all Char.isDigit && !(intPart.isEmpty && frac.isEmpty) then
        some (mkRat (sgn * (digitsVal intPart * 10 ^ frac.length + digitsVal frac))
          (10 ^ frac.length))
      else none
  | _ => none

/-- Python `str.rstrip()` (trailing whitespace removed). -/
def rstripChars (cs : List Char) : List Char :=
  (cs.reverse.dropWhile Char.isWhitespace).reverse

/-- Python `str.strip()` (leading and trailing whitespace removed). -/
def stripChars (cs : List Char) : List Char :=
  rstripChars (cs.dropWhile Char.isWhitespace)

/-- `strip` on `String`. -/
def pyStrip (s : String) : String := String.mk (stripChars s.toList)

/-- Python `c in s` on a string (`String.contains` is bypassed: the
embedding computes on the character list). -/
def strContains (s : String) (c : Char) : Bool := s.toList.contains c

/-- Python `s.startswith(t)`. -/
def strStartsWith (s t : String) : Bool := t.toList.isPrefixOf s.toList

/-- Python `str.ljust(n, c)`: pad on the right to length `n`. -/
def ljust (cs : List Char) (n : Nat) (c : Char) : List Char :=
  cs ++ List.replicate (n - cs.length) c

/-- Python `s.split(c)` for a one-character separator. -/
def splitOnChar (c : Char) : List Char → List (List Char)
  | [] => [[]]
  | x :: rest =>
      match splitOnChar c rest with
      | h :: t => if x = c then [] :: h :: t else (x :: h) :: t
      | [] => [[x]]

/-- Python `str.lower()` on the ASCII content this program compares. -/
def pyLower (s : String) : String := String.mk (s.toList.map Char.toLower)

/-! ## Exact rational arithmetic

Python numeric values are modelled in `ℚ`. The standard `ℚ` operations of
Mathlib do not reduce inside the kernel, so the embedding computes with the
following `mkRat`-based operations; each is proved equal to the corresponding
standard operation, so the theorems below may be read over ordinary rational
arithmetic. -/

/-- Kernel-computable product on `ℚ`. -/
def qmul (a b : ℚ) : ℚ := mkRat (a.num * b.num) (a.den * b.den)

/-- Kernel-computable difference on `ℚ`. -/
def qsub (a b : ℚ) : ℚ := mkRat (a.num * b.den - b.num * a.den) (a.den * b.den)

/-- Kernel-computable sum on `ℚ`. -/
def qadd (a b : ℚ) : ℚ := mkRat (a.num * b.den + b.num * a.den) (a.den * b.den)

/-- Kernel-computable absolute value on `ℚ`. -/
def qabs (a : ℚ) : ℚ := mkRat |a.num| a.den

/-- Kernel-computable power of ten in `ℚ`. -/
def qpow10 (i : Nat) : ℚ := mkRat ((10 : Int) ^ i) 1

theorem qmul_eq (a b : ℚ) : qmul a b = a * b := (Rat.mul_eq_mkRat a b).symm

theorem qsub_eq (a b : ℚ) : qsub a b = a - b := (Rat.sub_def' a b).symm

theorem qadd_eq (a b : ℚ) : qadd a b = a + b := by
  rw [qadd, Rat.add_def', Int.mul_comm b.num a.den]

theorem qabs_eq (a : ℚ) : qabs a = |a| := by
  rcases abs_cases a with ⟨h, _⟩ | ⟨h, hneg⟩
  · rw [qabs, h]
    rw [abs_of_nonneg (Rat.num_nonneg.2 (by rw [← h] at *; exact abs_nonneg a))]
    exact Rat.mkRat_self a
  · rw [qabs, h]
    rw [abs_of_neg (Rat.num_neg.2 hneg), ← Rat.neg_mkRat, Rat.mkRat_self]

theorem qpow10_eq (i : Nat) : qpow10 i = (10 : ℚ) ^ i := by
  rw [qpow10, Rat.mkRat_one]
  push_cast
  ring

/-! ## Code page 037

`bytes.decode('cp037')`, the default code page of the converter
(`display.py`, `signed.py`). The table below embeds the printable positions of
IBM code page 037; bytes in the control/accented ranges, which no copybook
field in the claims ever contains, are mapped to the replacement character. -/

/-- Decode one CP037 byte to its Unicode character. -/
def cp037Byte (b : Nat) : Char :=
  match b with
  | 0x40 => ' '
  | 0x4B => '.' | 0x4C => '<' | 0x4D => '(' | 0x4E => '+' | 0x4F => '|'
  | 0x50 => '&'
  | 0x5A => '!' | 0x5B => '$' | 0x5C => '*' | 0x5D => ')' | 0x5E => ';'
  | 0x60 => '-' | 0x61 => '/'
  | 0x6B => ',' | 0x6C => '%' | 0x6D => '_' | 0x6E => '>' | 0x6F => '?'
  | 0x7A => ':' | 0x7B => '#' | 0x7C => '@' | 0x7D => '\'' | 0x7E => '='
  | 0x7F => '"'
  | 0x81 => 'a' | 0x82 => 'b' | 0x83 => 'c' | 0x84 => 'd' | 0x85 => 'e'
  | 0x86 => 'f' | 0x87 => 'g' | 0x88 => 'h' | 0x89 => 'i'
  | 0x91 => 'j' | 0x92 => 'k' | 0x93 => 'l' | 0x94 => 'm' | 0x95 => 'n'
  | 0x96 => 'o' | 0x97 => 'p' | 0x98 => 'q' | 0x99 => 'r'
  | 0xA2 => 's' | 0xA3 => 't' | 0xA4 => 'u' | 0xA5 => 'v' | 0xA6 => 'w'
  | 0xA7 => 'x' | 0xA8 => 'y' | 0xA9 => 'z'
  | 0xC0 => '\x7b'
  | 0xC1 => 'A' | 0xC2 => 'B' | 0xC3 => 'C' | 0xC4 => 'D' | 0xC5 => 'E'
  | 0xC6 => 'F' | 0xC7 => 'G' | 0xC8 => 'H' | 0xC9 => 'I'
  | 0xD0 => '\x7d'
  | 0xD1 => 'J' | 0xD2 => 'K' | 0xD3 => 'L' | 0xD4 => 'M' | 0xD5 => 'N'
  | 0xD6 => 'O' | 0xD7 => 'P' | 0xD8 => 'Q' | 0xD9 => 'R'
  | 0xE0 => '\\'
  | 0xE2 => 'S' | 0xE3 => 'T' | 0xE4 => 'U' | 0xE5 => 'V' | 0xE6 => 'W'
  | 0xE7 => 'X' | 0xE8 => 'Y' | 0xE9 => 'Z'
  | 0xF0 => '0' | 0xF1 => '1' | 0xF2 => '2' | 0xF3 => '3' | 0xF4 => '4'
  | 0xF5 => '5' | 0xF6 => '6' | 0xF7 => '7' | 0xF8 => '8' | 0xF9 => '9'
  | _ => '�'

/-- Decode a CP037 byte string, as Python's `data.decode('cp037')`. -/
def cp037Decode (data : List Nat) : String :=
  String.mk (data.map cp037Byte)

/-! ## Copybook field model (`copybook_parser.py`)

The `Field` dataclass of `copybook_parser.py`, split into an attribute record
and the child list (the `parent` back-reference is dropped: it is never read by
the size/offset computation or the decoders). -/

/-- Attributes of a copybook field (the scalar attributes of the Python
`Field` dataclass). -/
structure FieldInfo where
  level : Nat := 1
  name : String := ""
  picture : Option String := none
  usage : Option String := none
  occursN : Option Nat := none
  redefines : Option String := none
  isFiller : Bool := false
  isGroup : Bool := false
  justifiedRight : Bool := false
  blankWhenZero : Bool := false
  signSeparate : Bool := false
  signLeading : Bool := false
  size : Nat := 0
  offset : Nat := 0
deriving DecidableEq, Repr

/-- A copybook field tree node: attributes plus ordered children. -/
inductive Field where
  | mk (info : FieldInfo) (children : List Field)
deriving Repr

/-- The attribute record of a node. -/
def Field.info : Field → FieldInfo
  | .mk i _ => i

/-- The ordered children of a node. -/
def Field.children : Field → List Field
  | .mk _ c => c

/-! ## Picture-size resolution (`calculate_picture_size`)

The Python code first applies `re.sub(r'\((\d+)\)', lambda m: 'X' * n, pic)`:
every `(n)` group is replaced by `n` copies of `X` while the character
preceding the parenthesis is left in place. It then applies
`re.sub(r'[A-Z9]', 'X', pic)`, a one-for-one substitution that leaves the
length unchanged, and takes `base_size = len(pic)`. The scan below mirrors the
regex scan left to right; the fuel argument is the remaining input length
(each step consumes at least one character, so the initial fuel is never
exhausted). -/

/-- One left-to-right scan replacing each `(n)` with `n` copies of `fill`. -/
def expandRepeatsGo (fill : Char) : Nat → List Char → List Char
  | 0, _ => []
  | _, [] => []
  | fuel + 1, '(' :: rest =>
      let ds := rest.takeWhile Char.isDigit
      (match rest.dropWhile Char.isDigit with
       | ')' :: tail =>
           if ds.isEmpty then '(' :: expandRepeatsGo fill fuel rest
           else List.replicate (digitsVal ds) fill ++ expandRepeatsGo fill fuel tail
       | _ => '(' :: expandRepeatsGo fill fuel rest)
  | fuel + 1, c :: rest => c :: expandRepeatsGo fill fuel rest

/-- Replace each `(n)` repeat group by `n` copies of `fill`, keeping the
character before the parenthesis (exactly what the Python regex does). -/
def expandRepeats (fill : Char) (cs : List Char) : List Char :=
  expandRepeatsGo fill cs.length cs

/-- The normalized picture of `calculate_picture_size`: `(n)` groups expanded,
then every `A..Z` or `9` replaced by `X` (length-preserving). -/
def normalizePicture (p : String) : List Char :=
  (expandRepeats 'X' p.toList).map
    (fun c => if ('A' ≤ c ∧ c ≤ 'Z') ∨ c = '9' then 'X' else c)

/-- Size in bytes of an elementary field from its picture and usage
(`calculate_picture_size` in `copybook_parser.py`). -/
def calculate_picture_size (picture : String) (usage : Option String) : Nat :=
  let base_size := (normalizePicture picture).length
  match usage with
  | some u =>
      if u = "COMP" ∨ u = "COMP-4" ∨ u = "BINARY" then
        if base_size ≤ 4 then 2 else if base_size ≤ 9 then 4 else 8
      else if u = "COMP-1" then 4
      else if u = "COMP-2" then 8
      else if u = "COMP-3" ∨ u = "PACKED-DECIMAL" then (base_size + 1) / 2
      else if u = "COMP-5" then
        if base_size ≤ 4 then 2 else if base_size ≤ 9 then 4 else 8
      else if u = "COMP-6" then (base_size + 1) / 2
      else base_size
  | none => base_size

mutual

/-- Size in bytes of a field tree node (`calculate_field_sizes`): a group with
children is the sum over ALL its children (REDEFINES children included);
an elementary field with a picture is its picture size, multiplied by a
nonzero OCCURS count; anything else has size 0. -/
def calculate_field_sizes : Field → Nat
  | .mk info children =>
    if info.isGroup && !children.isEmpty then childSizesSum children
    else match info.picture with
      | some p =>
          let s := calculate_picture_size p info.usage
          (match info.occursN with
           | some n => if n ≠ 0 then s * n else s
           | none => s)
      | none => 0

/-- Sum of `calculate_field_sizes` over a child list. -/
def childSizesSum : List Field → Nat
  | [] => 0
  | f :: fs => calculate_field_sizes f + childSizesSum fs

end

/-! ## Decoded values

Values produced by the handlers and stored in the decoded record: Python
`int`, `float` (modelled exactly in `ℚ`), `str`, nested `dict` (insertion
ordered) and `None`. -/

/-- A decoded Python value. The `ieeeFloat` constructor is deliberately
symbolic: it stands for the Python float that `FloatingPointHandler` produces
from a well-sized slice — `float(f"{struct.unpack(…, data)[0]:.7g}")` (or
`:.16g`), a composition of IEEE-754 decoding and decimal float formatting
whose exact value this development does not model (binary floating point);
the pair `(data, usage)` determines it, and no claim inspects such a value or
feeds one to the validator. -/
inductive Value where
  | int (n : Int)
  | float (q : ℚ)
  | str (s : String)
  | dict (entries : List (String × Value))
  | pynone
  | ieeeFloat (data : List Nat) (usage : Option String)
deriving Repr

/-! ## Byte decoders (`data_types/`) -/

/-- Substring after the first occurrence of `c` (Python `s[s.find(c)+1:]`,
used only under an `in` guard). -/
def afterFirst (c : Char) (s : String) : List Char :=
  match s.toList.dropWhile (· ≠ c) with
  | [] => []
  | _ :: rest => rest

/-- The decimal-point insertion all numeric handlers perform for a
non-negative digit string: `integer_part = s[:-dp] if len(s) > dp else '0'`,
`decimal_part = s[-dp:].ljust(dp, '0')`, result `f"{i}.{d}"`. -/
def insertDot (cs : List Char) (dp : Nat) : List Char :=
  let intPart := if cs.length > dp then cs.take (cs.length - dp) else ['0']
  intPart ++ '.' :: ljust (cs.drop (cs.length - dp)) dp '0'

/-- The negative-aware variant used by the packed and signed handlers:
on a `-` prefix, `integer_part = s[1:-dp] if len(s) > dp + 1 else '0'`,
`decimal_part = s[-dp:].ljust(dp, '0')`, result `f"-{i}.{d}"`. -/
def insertDotSigned (cs : List Char) (dp : Nat) : List Char :=
  if cs.head? = some '-' then
    let intPart := if cs.length > dp + 1 then (cs.drop 1).take (cs.length - 1 - dp) else ['0']
    '-' :: (intPart ++ '.' :: ljust (cs.drop (cs.length - dp)) dp '0')
  else insertDot cs dp

/-- `DisplayHandler.ebcdic_to_ascii` (`display.py`): decode each byte through
the code page; JUSTIFIED RIGHT strips trailing whitespace; BLANK WHEN ZERO
replaces an all-zero stripped value by spaces. No zoned sign-nibble handling
is performed. -/
def display_ebcdic_to_ascii (data : List Nat) (f : FieldInfo) : String :=
  let ascii := cp037Decode data
  let ascii := if f.justifiedRight then String.mk (rstripChars ascii.toList) else ascii
  if f.blankWhenZero && (stripChars ascii.toList).all (· = '0') then
    String.mk (List.replicate ascii.length ' ')
  else ascii

/-- `DisplayHandler.to_dict_value` (`display.py`): alphanumeric pictures stay
text; numeric pictures with `V` (or `.`) get a decimal point inserted at the
implied position and are converted with `float`, plain numeric pictures with
`int`; a failed conversion returns the (possibly dotted) text unchanged. -/
def display_to_dict_value (ascii : String) (f : FieldInfo) : Value :=
  match f.picture with
  | some p =>
    if strContains p 'X' || strContains p 'A' then .str ascii
    else if strContains p '9' then
      if strContains p 'V' || strContains p '.' then
        let dp : Nat :=
          if strContains p 'V' then (expandRepeats '9' (afterFirst 'V' p)).length
          else if strContains p '.' then (expandRepeats '9' (afterFirst '.' p)).length
          else 0
        let ascii2 :=
          if strContains p 'V' && !(strContains ascii '.') && dp > 0 then
            String.mk (insertDot ascii.toList dp)
          else ascii
        (match pyFloatOfString ascii2 with
         | some q => .float q
         | none => .str ascii2)
      else
        (match pyIntOfString ascii with
         | some n => .int n
         | none => .str ascii)
    else .str ascii
  | none => .str ascii

/-- Big-endian unsigned byte-string value (`struct.unpack('>…')` reading). -/
def beUnsigned (data : List Nat) : Nat :=
  data.foldl (fun a b => a * 256 + b) 0

/-- Big-endian two's-complement signed value of a byte string, as
`struct.unpack` with `'>h'`/`'>i'`/`'>q'` produces. -/
def beSigned (data : List Nat) : Int :=
  let u := beUnsigned data
  if (u : Int) ≥ 2 ^ (8 * data.length - 1) then (u : Int) - 2 ^ (8 * data.length) else (u : Int)

/-- One hex digit, lowercase. -/
def hexDigitChar (n : Nat) : Char :=
  if n < 10 then Char.ofNat ('0'.toNat + n) else Char.ofNat ('a'.toNat + (n - 10))

/-- Python `f'{b:02x}'` for a byte value. -/
def hexByteStr (b : Nat) : String :=
  String.mk [hexDigitChar (b / 16 % 16), hexDigitChar (b % 16)]

/-- Python `' '.join(f'{b:02x}' for b in data)`. -/
def hexSpaced (data : List Nat) : String :=
  String.intercalate " " (data.map hexByteStr)

/-- `BinaryHandler.ebcdic_to_ascii` (`binary.py`): a 2-, 4- or 8-byte slice is
read as a big-endian two's-complement integer and rendered with `str`; any
other length falls back to a space-separated lowercase hex dump. -/
def binary_ebcdic_to_ascii (data : List Nat) : String :=
  if data.length = 2 ∨ data.length = 4 ∨ data.length = 8 then toString (beSigned data)
  else hexSpaced data

/-- `BinaryHandler.to_dict_value` (`binary.py`): `float` conversion when the
picture contains `V` or `.` (no rescaling by the implied decimal position),
`int` otherwise; a failed conversion returns the text unchanged. -/
def binary_to_dict_value (ascii : String) (f : FieldInfo) : Value :=
  if f.picture.elim false (fun p => strContains p 'V' || strContains p '.') then
    (match pyFloatOfString ascii with
     | some q => .float q
     | none => .str ascii)
  else
    (match pyIntOfString ascii with
     | some n => .int n
     | none => .str ascii)

/-- `PackedDecimalHandler.ebcdic_to_ascii` (`packed_decimal.py`): every nibble
except the final one is rendered with `str()` (a nibble `0xA..0xF` becomes the
two-character text `"10".."15"`, with no decode error); the final low nibble
is the sign, negative exactly for `0xB` and `0xD` and positive for everything
else. `none` models the `IndexError` that `data[-1]` raises on an empty
slice. -/
def packed_ebcdic_to_ascii (data : List Nat) : Option String :=
  match data.getLast? with
  | none => none
  | some last =>
      let value := String.join
        ((data.dropLast.map fun b => toString (b / 16) ++ toString (b % 16))
          ++ [toString (last / 16)])
      let isNegative := last % 16 = 0xB || last % 16 = 0xD
      some (if isNegative then "-" ++ value else value)

/-- `PackedDecimalHandler.to_dict_value` (`packed_decimal.py`). `none` models
the `TypeError` of `'V' in field.picture` when the field has no picture; a
failed numeric conversion returns the original text. -/
def packed_to_dict_value (ascii : String) (f : FieldInfo) : Option Value :=
  match f.picture with
  | none => none
  | some p =>
    some (
      if strContains p 'V' || strContains p '.' then
        let dp := if strContains p 'V' then (afterFirst 'V' p).count '9' else 0
        if dp > 0 then
          (match pyFloatOfString (String.mk (insertDotSigned ascii.toList dp)) with
           | some q => .float q
           | none => .str ascii)
        else
          (match pyIntOfString ascii with
           | some n => .int n
           | none => .str ascii)
      else
        (match pyIntOfString ascii with
         | some n => .int n
         | none => .str ascii))

/-- `SignedHandler.ebcdic_to_ascii` (`signed.py`): with SIGN SEPARATE, the
leading (or trailing) character is interpreted as the sign (`+`/`C` positive,
`-`/`D` negative, anything else treated as positive); `none` models the
`IndexError` on an empty decoded string. Without SIGN SEPARATE the decoded
text is returned unchanged. -/
def signed_ebcdic_to_ascii (data : List Nat) (f : FieldInfo) : Option String :=
  let ascii := cp037Decode data
  if f.signSeparate then
    match ascii.toList with
    | [] => none
    | c :: rest =>
      if f.signLeading then
        let value := String.mk rest
        some (if c = '+' || c = 'C' then value
              else if c = '-' || c = 'D' then "-" ++ value
              else value)
      else
        let sc := (c :: rest).getLast (List.cons_ne_nil c rest)
        let value := String.mk (c :: rest).dropLast
        some (if sc = '+' || sc = 'C' then value
              else if sc = '-' || sc = 'D' then "-" ++ value
              else value)
  else some ascii

/-- `SignedHandler.to_dict_value` (`signed.py`): same conversion shape as the
packed handler; `none` models the `TypeError` of `'V' in field.picture` when
the field has no picture. -/
def signed_to_dict_value (ascii : String) (f : FieldInfo) : Option Value :=
  match f.picture with
  | none => none
  | some p =>
    some (
      if strContains p 'V' || strContains p '.' then
        let dp := if strContains p 'V' then (afterFirst 'V' p).count '9' else 0
        if dp > 0 then
          (match pyFloatOfString (String.mk (insertDotSigned ascii.toList dp)) with
           | some q => .float q
           | none => .str ascii)
        else
          (match pyIntOfString ascii with
           | some n => .int n
           | none => .str ascii)
      else
        (match pyIntOfString ascii with
         | some n => .int n
         | none => .str ascii))

/-- `UnsignedPackedHandler.ebcdic_to_ascii` (`unsigned_packed.py`): all
nibbles rendered with `str()`, leading zeros stripped (all-zero input becomes
`"0"`); no sign nibble and no decode error. -/
def unsigned_packed_ebcdic_to_ascii (data : List Nat) : String :=
  let value := String.join (data.map fun b => toString (b / 16) ++ toString (b % 16))
  let stripped := String.mk (value.toList.dropWhile (· = '0'))
  if stripped.isEmpty then "0" else stripped

/-- `UnsignedPackedHandler.to_dict_value` (`unsigned_packed.py`): the picture
access is guarded by `field.picture and …`, so this conversion is total. -/
def unsigned_packed_to_dict_value (ascii : String) (f : FieldInfo) : Value :=
  if f.picture.elim false (fun p => strContains p 'V' || strContains p '.') then
    let dp := if f.picture.elim false (fun p => strContains p 'V') then
        (afterFirst 'V' (f.picture.getD "")).count '9'
      else 0
    if dp > 0 then
      (match pyFloatOfString (String.mk (insertDot ascii.toList dp)) with
       | some q => .float q
       | none => .str ascii)
    else
      (match pyIntOfString ascii with
       | some n => .int n
       | none => .str ascii)
  else
    (match pyIntOfString ascii with
     | some n => .int n
     | none => .str ascii)

/-- `NativeBinaryHandler.ebcdic_to_ascii` (`native_binary.py`): identical to
the BINARY handler except that `struct.unpack` uses the HOST byte order
(`sys.byteorder`); the program's x86-64 host is little-endian, so a 2-, 4- or
8-byte slice is read as a little-endian two's-complement integer (the
big-endian read of the reversed bytes); any other length falls back to the
same space-separated lowercase hex dump. Total for every slice. -/
def native_binary_ebcdic_to_ascii (data : List Nat) : String :=
  if data.length = 2 ∨ data.length = 4 ∨ data.length = 8 then
    toString (beSigned data.reverse)
  else hexSpaced data

/-- `NativeBinaryHandler.to_dict_value` (`native_binary.py`): the function
body is character-for-character the same code as
`BinaryHandler.to_dict_value`. -/
def native_binary_to_dict_value (ascii : String) (f : FieldInfo) : Value :=
  binary_to_dict_value ascii f

/-- `FloatingPointHandler.ebcdic_to_ascii` composed with its `to_dict_value`
(`floating_point.py`). The control flow is modelled exactly:
`if field.usage == 'COMP-1' or len(data) == 4` selects a single-precision
`struct.unpack('>f', data)`, which raises `struct.error` unless the slice has
exactly 4 bytes (`none`); `elif field.usage == 'COMP-2' or len(data) == 8`
selects `struct.unpack('>d', data)`, raising unless exactly 8 bytes; any
other combination returns the hex dump, which `to_dict_value` then feeds to
`float` (succeeding only for a one-byte dump whose two hex digits are
decimal). A successful IEEE read yields the symbolic `Value.ieeeFloat` (its
text and reparse are binary floating point, see `Value`). -/
def floating_point_extract (data : List Nat) (f : FieldInfo) : Option Value :=
  if f.usage = some "COMP-1" ∨ data.length = 4 then
    if data.length = 4 then some (.ieeeFloat data f.usage) else none
  else if f.usage = some "COMP-2" ∨ data.length = 8 then
    if data.length = 8 then some (.ieeeFloat data f.usage) else none
  else
    match pyFloatOfString (hexSpaced data) with
    | some q => some (.float q)
    | none => some (.str (hexSpaced data))

/-! ## Codec registry (spec-modelled) and record walker (`conversion_engine.py`) -/

/-- The usage-specific handler classes of `data_types/`. -/
inductive HandlerKind where
  | display
  | binary
  | nativeBinary
  | packed
  | unsignedPacked
  | floatingPoint
  | signedSep
deriving DecidableEq, Repr

/-- Modelled from the spec: `get_handler_for_field`, imported by
`conversion_engine.py` from `ebcdic_converter.data_types`, is not present
under `src/` (the `data_types` package has no `__init__.py`). Spec §4.3: a
pure dispatch on `field.usage` to the handler for that usage (bare `COMP`
aliasing `COMP-4`), with DISPLAY + SIGN SEPARATE routed to the
sign-separate decoder, absent usage meaning DISPLAY, and unknown usage an
error (`none`). -/
def get_handler_for_field (f : FieldInfo) : Option HandlerKind :=
  match f.usage with
  | some u =>
      if u = "COMP" ∨ u = "COMP-4" ∨ u = "BINARY" then some .binary
      else if u = "COMP-3" ∨ u = "PACKED-DECIMAL" then some .packed
      else if u = "COMP-5" then some .nativeBinary
      else if u = "COMP-6" then some .unsignedPacked
      else if u = "COMP-1" ∨ u = "COMP-2" then some .floatingPoint
      else if u = "DISPLAY" then
        if f.signSeparate then some .signedSep else some .display
      else none
  | none => if f.signSeparate then some .signedSep else some .display

/-- The byte slice `record[field.offset : field.offset + field.size]` that
every handler's `extract_from_record` takes (Python slicing clips at the
record end). -/
def sliceField (record : List Nat) (f : FieldInfo) : List Nat :=
  (record.drop f.offset).take f.size

/-- The engine's per-field extraction (`_process_field` calling
`handler.extract_from_record`). Every handler class defines
`extract_from_record`; `DisplayHandler.extract_from_record` returns the
decoded TEXT only (it never calls `to_dict_value`), while the other handlers
convert to a typed value. `none` models an uncaught exception — possible only
in the packed, signed-separate and floating-point branches and for an unknown
usage (the registry's dispatch error). -/
def extract_from_record (record : List Nat) (f : FieldInfo) : Option Value :=
  let data := sliceField record f
  match get_handler_for_field f with
  | some .display => some (.str (display_ebcdic_to_ascii data f))
  | some .binary => some (binary_to_dict_value (binary_ebcdic_to_ascii data) f)
  | some .packed => (packed_ebcdic_to_ascii data).bind (fun a => packed_to_dict_value a f)
  | some .unsignedPacked => some (unsigned_packed_to_dict_value (unsigned_packed_ebcdic_to_ascii data) f)
  | some .signedSep => (signed_ebcdic_to_ascii data f).bind (fun a => signed_to_dict_value a f)
  | some .nativeBinary => some (native_binary_to_dict_value (native_binary_ebcdic_to_ascii data) f)
  | some .floatingPoint => floating_point_extract data f
  | none => none

/-- Python dict assignment `result[name] = value`: replace in place if the key
exists, else append (insertion order preserved). -/
def assocSet (l : List (String × Value)) (k : String) (v : Value) : List (String × Value) :=
  if l.any (fun p => p.1 = k) then l.map (fun p => if p.1 = k then (k, v) else p)
  else l ++ [(k, v)]

mutual

/-- `ConversionEngine._process_field` (`conversion_engine.py`): the root
(level 0) processes its children into the result; FILLER and 88-level items
are skipped; a group produces a nested dict under its name; an elementary
field with a picture or usage is extracted and assigned under its name — for
an OCCURS field both branches of the Python `if` assign the SAME single
scalar (`result[field.name] = value`), so no list of elements is built. -/
def process_field (record : List Nat) : Field → List (String × Value) → Option (List (String × Value))
  | .mk info children, result =>
    if info.level = 0 then process_children record children result
    else if info.isFiller then some result
    else if info.level = 88 then some result
    else if info.isGroup then
      match process_children record children [] with
      | some g => some (assocSet result info.name (.dict g))
      | none => none
    else if info.picture.isSome || info.usage.isSome then
      match extract_from_record record info with
      | some v => some (assocSet result info.name v)
      | none => none
    else some result

/-- Fold `process_field` over a child list. -/
def process_children (record : List Nat) : List Field → List (String × Value) → Option (List (String × Value))
  | [], result => some result
  | f :: fs, result =>
      match process_field record f result with
      | some r => process_children record fs r
      | none => none

end

/-- `ConversionEngine.convert`: process the whole structure against one
record, starting from an empty result dict. -/
def convert (record : List Nat) (structure' : Field) : Option (List (String × Value)) :=
  process_field record structure' []

/-! ## Record reader (`ebcdic_reader.py`) -/

/-- `EbcdicReader.record_length`: the constructor's `record_length` argument
if one was given, otherwise the hard default 80 (the "common record length"
heuristic). -/
def record_length (given : Option Nat) : Nat := given.getD 80

/-- Modelling `cli.py` lines 94–98: `main` constructs `EbcdicReader` with
file, encoding and buffer size only — no `record_length` argument, so the
default applies regardless of the copybook root size. -/
def cliReaderRecordLengthArg : Option Nat := none

/-- Iterating `EbcdicReader.read_record`: take `recLen` bytes while at least
`recLen` remain; a shorter remainder (including a trailing partial record)
makes `read_record` return `None`, which ends iteration silently — no
truncation error exists in the reader. The fuel is the input length; each
step consumes `recLen ≥ 1` bytes, so the fuel is never exhausted. -/
def readRecordsGo : Nat → List Nat → Nat → List (List Nat)
  | 0, _, _ => []
  | fuel + 1, data, recLen =>
      if recLen = 0 then []
      else if data.length < recLen then []
      else data.take recLen :: readRecordsGo fuel (data.drop recLen) recLen

/-- All records the reader yields from `data` at record length `recLen`
(`EbcdicReader.__iter__`). -/
def readRecords (data : List Nat) (recLen : Nat) : List (List Nat) :=
  readRecordsGo data.length data recLen

/-! ## Validation engine (`validation_engine/`)

Error classes. The Python classifiers return a `(class, detail)` string pair;
the information the detail adds beyond the class is the scale factor of a
`scale_error`, carried here as the argument of `scaleError`. -/

/-- Classification outcome of the validator's error classifiers. -/
inductive ErrClass where
  | missingValue
  | typeMismatch
  | signError
  | offByOne
  | precisionLoss
  | scaleError (k : Nat)
  | numericMismatch
  | whitespaceError
  | caseError
  | characterEncoding
  | truncation
  | stringMismatch
  | unknownError
deriving DecidableEq, Repr

/-- `classify_numeric_error` (`error_classifier.py`), in order: opposite
signs; absolute difference exactly 1; difference within tolerance; the first
scale factor `10^i`, `i = 1..9`, bringing the values within (strictly) the
tolerance; default numeric mismatch. -/
def classify_numeric_error (a b tol : ℚ) : ErrClass :=
  if qmul a b < mkRat 0 1 then .signError
  else if qabs (qsub a b) = mkRat 1 1 then .offByOne
  else if qabs (qsub a b) ≤ tol then .precisionLoss
  else
    match (List.range' 1 9).find?
        (fun i => qabs (qsub (qmul a (qpow10 i)) b) < tol
               || qabs (qsub a (qmul b (qpow10 i))) < tol) with
    | some i => .scaleError i
    | none => .numericMismatch

/-- `classify_string_error` (`error_classifier.py`), in order: equal after
stripping; equal ignoring case; some differing aligned position with a
non-ASCII code point; one a prefix of the other; default string mismatch. -/
def classify_string_error (s1 s2 : String) : ErrClass :=
  if pyStrip s1 = pyStrip s2 then .whitespaceError
  else if pyLower s1 = pyLower s2 then .caseError
  else if (s1.toList.zip s2.toList).any
      (fun p => p.1 ≠ p.2 && (p.1.toNat > 127 || p.2.toNat > 127)) then
    .characterEncoding
  else if strStartsWith s1 s2 || strStartsWith s2 s1 then .truncation
  else .stringMismatch

/-- `classify_error` (`error_classifier.py`): `None` on either side is a
missing value; a Python TYPE mismatch (`type(value1) != type(value2)`, so in
particular `int` against `float`) is reported BEFORE any numeric comparison;
same-type numeric pairs go to the numeric classifier, string pairs to the
string classifier, and anything else is unknown. (Symbolic `ieeeFloat`
values — Python floats whose numeric content is not modelled — fall into the
catch-all here; no claim routes one through the validator.) -/
def classify_error (v1 v2 : Value) (tol : ℚ) : ErrClass :=
  match v1, v2 with
  | .pynone, _ => .missingValue
  | _, .pynone => .missingValue
  | .int a, .int b => classify_numeric_error (mkRat a 1) (mkRat b 1) tol
  | .float a, .float b => classify_numeric_error a b tol
  | .str a, .str b => classify_string_error a b
  | .dict _, .dict _ => .unknownError
  | _, _ => .typeMismatch

/-! ### Normalization (`normalization.py`) -/

/-- `is_numeric_string` (`normalization.py`): after stripping, an optional
`-`, then either all digits, or exactly one `.` with digits (at least one on
each side). -/
def is_numeric_string (s : String) : Bool :=
  let v := stripChars s.toList
  if v.isEmpty then false
  else
    let v := if v.head? = some '-' then v.drop 1 else v
    if v.contains '.' then
      match splitOnChar '.' v with
      | [p0, p1] => pyIsDigit p0 && pyIsDigit p1
      | _ => false
    else pyIsDigit v

/-- `normalize_numeric` (`normalization.py`) on the exact rational a Python
number carries: an integer-valued number becomes an `int`; otherwise the
value is formatted with 10 fractional digits and re-parsed, i.e. rounded to
a denominator dividing `10^10` (the trailing-zero strip does not change the
parsed value; rounding is modelled half-up, which agrees with Python on
every value compared in this development, all of which are exact at two
decimals). -/
def normalize_numeric (q : ℚ) : Value :=
  if q.den = 1 then .int q.num
  else
    let r := mkRat (Int.fdiv (qadd (qmul q (qpow10 10)) (mkRat 1 2)).num
      (qadd (qmul q (qpow10 10)) (mkRat 1 2)).den) ((10 : Nat) ^ 10)
    if r.den = 1 then .int r.num else .float r

/-- `normalize_string` (`normalization.py`): strip; if the result looks
numeric, promote with `float` (then to `int` when integer-valued); otherwise
keep the stripped string. -/
def normalize_string (s : String) : Value :=
  let normalized := pyStrip s
  if is_numeric_string normalized then
    match pyFloatOfString normalized with
    | some q => if q.den = 1 then .int q.num else .float q
    | none => .str normalized
  else .str normalized

mutual

/-- `normalize_value` (`normalization.py`): numbers via `normalize_numeric`,
strings via `normalize_string`, dicts element-wise, `None` unchanged. A
symbolic `ieeeFloat` is a Python float, whose numeric normalization this
development cannot compute; it is carried through unchanged (no claim
normalizes or compares such a value). -/
def normalize_value : Value → Value
  | .pynone => .pynone
  | .int n => normalize_numeric (mkRat n 1)
  | .float q => normalize_numeric q
  | .str s => normalize_string s
  | .dict xs => .dict (normalize_entries xs)
  | .ieeeFloat data usage => .ieeeFloat data usage

/-- Element-wise normalization of a dict. -/
def normalize_entries : List (String × Value) → List (String × Value)
  | [] => []
  | (k, v) :: rest => (k, normalize_value v) :: normalize_entries rest

end

mutual

/-- Python structural `==` on decoded values (the default branch of
`_values_equal`; dict order sensitivity never matters there because records
are flattened before comparison). -/
def valueBeq : Value → Value → Bool
  | .pynone, .pynone => true
  | .int a, .int b => a = b
  | .float a, .float b => a = b
  | .str a, .str b => a = b
  | .dict xs, .dict ys => entriesBeq xs ys
  | _, _ => false

/-- Structural `==` on dict entry lists. -/
def entriesBeq : List (String × Value) → List (String × Value) → Bool
  | [], [] => true
  | (k1, v1) :: r1, (k2, v2) :: r2 => k1 = k2 && valueBeq v1 v2 && entriesBeq r1 r2
  | _, _ => false

end

/-- `DualPassValidator._values_equal` (`dual_pass_validator.py`): numeric
pairs compare within tolerance when a float is involved and exactly when both
are ints; string pairs compare stripped; anything else by Python `==`. -/
def values_equal (v1 v2 : Value) (tol : ℚ) : Bool :=
  match v1, v2 with
  | .pynone, .pynone => true
  | .pynone, _ => false
  | _, .pynone => false
  | .int a, .int b => a = b
  | .float a, .float b => qabs (qsub a b) ≤ tol
  | .int a, .float b => qabs (qsub (mkRat a 1) b) ≤ tol
  | .float a, .int b => qabs (qsub a (mkRat b 1)) ≤ tol
  | .str a, .str b => pyStrip a = pyStrip b
  | v1, v2 => valueBeq v1 v2

/-- One leaf comparison of `DualPassValidator._compare_records`: normalize
both sides, report nothing when `_values_equal` holds, otherwise classify the
normalized pair. -/
def compare_leaf (first second : Value) (tol : ℚ) : Option ErrClass :=
  let n1 := normalize_value first
  let n2 := normalize_value second
  if values_equal n1 n2 tol then none else some (classify_error n1 n2 tol)

/-! ## Claim fixtures

Field records as `parse_field_definition` produces them for the copybook
statements quoted in the claims. -/

/-- `05 AMT PIC S9(3)V99.` (DISPLAY by default). -/
def amtField : FieldInfo := { level := 5, name := "AMT", picture := some "S9(3)V99" }

/-- The full decoding the claims describe for a DISPLAY field: the handler's
`ebcdic_to_ascii` followed by its `to_dict_value`. -/
def displayDecode (data : List Nat) (f : FieldInfo) : Value :=
  display_to_dict_value (display_ebcdic_to_ascii data f) f

/-- `05 ITEM OCCURS 3 TIMES PIC 9(2).`, with the size `calculate_field_sizes`
assigns (picture size 3 × occurs 3 = 9) and offset 0. -/
def itemField : FieldInfo :=
  { level := 5, name := "ITEM", picture := some "9(2)", occursN := some 3,
    size := 9, offset := 0 }

/-- A record structure whose only field is `ITEM`. -/
def itemRoot : Field :=
  .mk { level := 0, name := "ROOT", isGroup := true } [.mk itemField []]

/-- `05 CNT PIC S9(9) COMP.` -/
def cntField : FieldInfo :=
  { level := 5, name := "CNT", picture := some "S9(9)", usage := some "COMP" }

/-- A BINARY field with an implied decimal position: `PIC S9(3)V99 COMP`. -/
def cntVField : FieldInfo :=
  { level := 5, name := "AMTB", picture := some "S9(3)V99", usage := some "COMP" }

/-- `05 QTY PIC S9(5) COMP-3.` -/
def qtyField : FieldInfo :=
  { level := 5, name := "QTY", picture := some "S9(5)", usage := some "COMP-3" }

/-- The full decoding for a COMP-3 field: `ebcdic_to_ascii` then
`to_dict_value` (`none` models an uncaught exception). -/
def packedDecode (data : List Nat) (f : FieldInfo) : Option Value :=
  (packed_ebcdic_to_ascii data).bind (fun a => packed_to_dict_value a f)

/-- The full decoding for a BINARY field. -/
def binaryDecode (data : List Nat) (f : FieldInfo) : Value :=
  binary_to_dict_value (binary_ebcdic_to_ascii data) f

/-- `A PIC X(4).` (size 5 under `calculate_picture_size`: the `(4)` expansion
keeps the `X` before the parenthesis). -/
def fieldA : Field := .mk { level := 5, name := "A", picture := some "XXXX" } []

/-- `B REDEFINES A PIC 9999.` -/
def fieldB : Field :=
  .mk { level := 5, name := "B", picture := some "9999", redefines := some "A" } []

/-- A group holding `A` and its redefinition `B`. -/
def grpG : Field := .mk { level := 1, name := "G", isGroup := true } [fieldA, fieldB]

/-- A root whose single elementary child has `PIC XXX`, so `size(root) = 3`. -/
def xxxRoot : Field :=
  .mk { level := 0, name := "ROOT", isGroup := true }
    [.mk { level := 1, name := "R", picture := some "XXX" } []]

/-! ## C1 — zoned DISPLAY sign handling -/

/-- C1 counterexample. Claim: for `05 AMT PIC S9(3)V99.` the CP037 bytes
`F0 F0 F1 F2 C3` decode to the decimal +001.23 (sign taken from the last
byte's high nibble). Code: `DisplayHandler` never inspects a sign nibble; the
final byte `C3` decodes through CP037 to the letter `C`, the implied decimal
point is inserted, the `float` conversion fails, and the decoder returns the
STRING `"001.2C"` — not the decimal 1.23. -/
theorem c1_zoned_sign_counterexample :
    displayDecode [0xF0, 0xF0, 0xF1, 0xF2, 0xC3] amtField = .str "001.2C" ∧
    Value.str "001.2C" ≠ Value.float (mkRat 123 100) := by
  exact ⟨rfl, fun h => Value.noConfusion h⟩

/-- C1 amended. The DISPLAY decoder does no zoned sign handling: bytes decode
through the code page one-for-one. For `05 AMT PIC S9(3)V99.`, all-digit
bytes `F0 F0 F1 F2 F3` decode to the decimal 1.23 (scale 2 from `V`), but the
sign-zoned bytes of the claim decode to the letters `C` (`C3`) and `L` (`D3`),
so the decoder returns the unconverted strings `"001.2C"` and `"001.2L"`
instead of ±1.23. -/
theorem c1_zoned_decode_amended :
    displayDecode [0xF0, 0xF0, 0xF1, 0xF2, 0xF3] amtField = .float (mkRat 123 100) ∧
    displayDecode [0xF0, 0xF0, 0xF1, 0xF2, 0xC3] amtField = .str "001.2C" ∧
    displayDecode [0xF0, 0xF0, 0xF1, 0xF2, 0xD3] amtField = .str "001.2L" := by
  exact ⟨rfl, rfl, rfl⟩

/-! ## C2 — record reader framing -/

/-- C2 counterexample. Claim: the reader yields slices of length
`size(root)`, and a trailing partial record raises a truncation error. Code:
`cli.py` constructs `EbcdicReader` without a record length, so the default 80
applies whatever the copybook says; a 6-byte input over a 3-byte root yields
NO records (the whole input is shorter than 80 and is silently discarded,
with no error), instead of the two 3-byte records the claim requires; and at
record length 3 a 4-byte input yields one record, silently dropping the
trailing byte rather than raising. -/
theorem c2_reader_counterexample :
    record_length cliReaderRecordLengthArg = 80 ∧
    calculate_field_sizes xxxRoot = 3 ∧
    readRecords [1, 2, 3, 4, 5, 6] (record_length cliReaderRecordLengthArg) = [] ∧
    ([] : List (List Nat)) ≠ [[1, 2, 3], [4, 5, 6]] ∧
    readRecords [1, 2, 3, 4] 3 = [[1, 2, 3]] := by
  exact ⟨rfl, rfl, rfl, by simp, rfl⟩

/-- Unfolding helper for the fuelled reader loop. -/
theorem readRecordsGo_spec (recLen : Nat) (hpos : 0 < recLen) :
    ∀ fuel data, data.length ≤ fuel →
      (∀ r ∈ readRecordsGo fuel data recLen, r.length = recLen) ∧
      (readRecordsGo fuel data recLen).length = data.length / recLen := by
  intro fuel
  induction fuel with
  | zero =>
      intro data h
      have hz : data.length = 0 := Nat.le_zero.mp h
      refine ⟨by simp [readRecordsGo], ?_⟩
      simp [readRecordsGo, hz]
  | succ n ih =>
      intro data h
      have h0 : ¬ recLen = 0 := Nat.pos_iff_ne_zero.mp hpos
      by_cases hlt : data.length < recLen
      · refine ⟨?_, ?_⟩
        · simp [readRecordsGo, h0, hlt]
        · simp [readRecordsGo, h0, hlt, Nat.div_eq_of_lt hlt]
      · have hle : recLen ≤ data.length := Nat.le_of_not_lt hlt
        have hdrop : (data.drop recLen).length ≤ n := by
          simp only [List.length_drop]
          omega
        obtain ⟨ih1, ih2⟩ := ih (data.drop recLen) hdrop
        refine ⟨?_, ?_⟩
        · intro r hr
          simp only [readRecordsGo, if_neg h0, if_neg hlt, List.mem_cons] at hr
          rcases hr with rfl | hr
          · simp [List.length_take, Nat.min_eq_left hle]
          · exact ih1 r hr
        · simp only [readRecordsGo, if_neg h0, if_neg hlt, List.length_cons, ih2,
            List.length_drop]
          rw [Nat.div_eq_sub_div hpos hle]

/-- C2 amended. The reader yields consecutive slices of length
`record_length` — which defaults to 80 and is NOT wired to `size(root)` by the
CLI — until fewer than `record_length` bytes remain; the remainder (a trailing
partial record) is silently discarded with no truncation error, so the number
of records is `⌊input length / record_length⌋`. -/
theorem c2_reader_amended (data : List Nat) (recLen : Nat) (hpos : 0 < recLen) :
    record_length cliReaderRecordLengthArg = 80 ∧
    (∀ r ∈ readRecords data recLen, r.length = recLen) ∧
    (readRecords data recLen).length = data.length / recLen := by
  obtain ⟨h1, h2⟩ := readRecordsGo_spec recLen hpos data.length data (Nat.le_refl _)
  exact ⟨rfl, h1, h2⟩

/-- C2 witness: the amended theorem at the 4-byte input and record length 3. -/
theorem c2_reader_amended_witness :
    0 < 3 ∧
    (record_length cliReaderRecordLengthArg = 80 ∧
     (∀ r ∈ readRecords [1, 2, 3, 4] 3, r.length = 3) ∧
     (readRecords [1, 2, 3, 4] 3).length = [1, 2, 3, 4].length / 3) :=
  ⟨by decide, c2_reader_amended [1, 2, 3, 4] 3 (by decide)⟩

/-! ## C3 — OCCURS produces no sequence -/

/-- C3 evaluation. Claim (and the engine's own comment, "For OCCURS, create a
list of values"): `05 ITEM OCCURS 3 TIMES PIC 9(2).` over the six CP037 bytes
`F1 F2 F3 F4 F5 F6` yields the sequence [12, 34, 56]. Code: the field's size
is multiplied by the OCCURS count (3 × 3 = 9), ONE slice of the record is
decoded, and both branches of the OCCURS `if` in `_process_field` assign that
single scalar, so the decoded record binds `ITEM` to the single text value
`"123456"` — no list of three elements exists in the result. -/
theorem c3_occurs_code_evaluation :
    calculate_field_sizes (.mk itemField []) = 9 ∧
    convert [0xF1, 0xF2, 0xF3, 0xF4, 0xF5, 0xF6] itemRoot =
      some [("ITEM", Value.str "123456")] := by
  exact ⟨rfl, rfl⟩

/-! ## C4 — picture digit counting -/

/-- C4 counterexample. Claim: the digit count excludes a leading `S`, `V`
consumes no position, and `PIC S9(9)` with usage COMP resolves to 4 bytes.
Code: `calculate_picture_size` replaces `(9)` by nine `X`s while KEEPING the
`9` before the parenthesis, and the second substitution `[A-Z9] → X` also
counts `S` (and would count `V`), so `S9(9)` normalizes to 11 positions and
the COMP branch returns 8 bytes, not 4. -/
theorem c4_picture_size_counterexample :
    calculate_picture_size "S9(9)" (some "COMP") = 8 ∧ (8 : Nat) ≠ 4 := by
  exact ⟨rfl, by decide⟩

/-- C4 amended. The position count of `calculate_picture_size` is the length
of the normalized picture, in which a leading `S` (and a `V`) each count as
one position and a `(n)` repeat expands to `n` positions IN ADDITION to the
symbol before the parenthesis; for the BINARY usages the size is 2, 4 or 8 by
thresholds 4 and 9 on that count. `PIC S9(9)` normalizes to 11 positions and
resolves to 8 bytes under COMP. -/
theorem c4_picture_size_amended :
    (normalizePicture "S9(9)").length = 11 ∧
    (normalizePicture "S9(3)V99").length = 8 ∧
    (∀ u, (u = "COMP" ∨ u = "COMP-4" ∨ u = "BINARY") → ∀ p,
      calculate_picture_size p (some u) =
        (if (normalizePicture p).length ≤ 4 then 2
         else if (normalizePicture p).length ≤ 9 then 4 else 8)) ∧
    calculate_picture_size "S9(9)" (some "COMP") = 8 := by
  refine ⟨rfl, rfl, ?_, rfl⟩
  intro u hu p
  rcases hu with rfl | rfl | rfl <;>
    simp [calculate_picture_size]

/-- C4 witness: the amended theorem's universal part at `COMP`, `S9(9)`. -/
theorem c4_picture_size_amended_witness :
    calculate_picture_size "S9(9)" (some "COMP") =
      (if (normalizePicture "S9(9)").length ≤ 4 then 2
       else if (normalizePicture "S9(9)").length ≤ 9 then 4 else 8) :=
  c4_picture_size_amended.2.2.1 "COMP" (Or.inl rfl) "S9(9)"

/-! ## C5 — COMP-3 size formula -/

/-- C5 counterexample. Claim: COMP-3 size is `ceil((d+1)/2)` with `d` the
digit count, so `PIC S9(5) COMP-3` resolves to 3 bytes. Code: the count is the
normalized picture length (7 for `S9(5)`: `S`, the kept `9`, five expanded
`X`s) and the COMP-3 branch computes `(7 + 1) // 2 = 4` bytes, not 3. -/
theorem c5_comp3_size_counterexample :
    calculate_picture_size "S9(5)" (some "COMP-3") = 4 ∧ (4 : Nat) ≠ 3 := by
  exact ⟨rfl, by decide⟩

/-- C5 amended. For COMP-3/PACKED-DECIMAL the resolved size is
`(b + 1) / 2` (integer division, i.e. `ceil(b/2)`) where `b` is the
normalized picture length — a count that includes a leading `S` and the
symbol kept before each `(n)`; `PIC S9(5) COMP-3` has `b = 7` and resolves to
4 bytes. -/
theorem c5_comp3_size_amended :
    (∀ u, (u = "COMP-3" ∨ u = "PACKED-DECIMAL") → ∀ p,
      calculate_picture_size p (some u) = ((normalizePicture p).length + 1) / 2) ∧
    (normalizePicture "S9(5)").length = 7 ∧
    calculate_picture_size "S9(5)" (some "COMP-3") = 4 := by
  refine ⟨?_, rfl, rfl⟩
  intro u hu p
  rcases hu with rfl | rfl <;>
    simp [calculate_picture_size]

/-- C5 witness: the amended theorem's universal part at `COMP-3`, `S9(5)`. -/
theorem c5_comp3_size_amended_witness :
    calculate_picture_size "S9(5)" (some "COMP-3") =
      ((normalizePicture "S9(5)").length + 1) / 2 :=
  c5_comp3_size_amended.1 "COMP-3" (Or.inl rfl) "S9(5)"

/-! ## C6 — BINARY implied scale -/

/-- C6 counterexample. Claim: a BINARY field whose picture has `V` with `k`
implied fractional digits decodes to the integer divided by `10^k`. Code:
`BinaryHandler.to_dict_value` merely converts the integer's text with
`float`, so `PIC S9(3)V99 COMP` over bytes `00 00 30 39` (integer 12345)
decodes to the float 12345, not 123.45. -/
theorem c6_binary_scale_counterexample :
    binaryDecode [0x00, 0x00, 0x30, 0x39] cntVField = .float (mkRat 12345 1) ∧
    Value.float (mkRat 12345 1) ≠ Value.float (mkRat 12345 100) := by
  refine ⟨rfl, ?_⟩
  intro h
  injection h with h'
  exact absurd h' (by decide)

/-- C6 amended. The decoder reads the big-endian two's-complement integer
(for 2-, 4- and 8-byte slices) and returns that integer UNSCALED: as a float
when the picture contains `V` or `.`, as an int otherwise; no division by
`10^k` happens. The universal part exhibits two's-complement on all 2-byte
values with high byte `FF`. -/
theorem c6_binary_amended (b : Nat) (hb : b < 256) :
    beSigned [0xFF, b] = (b : Int) - 256 ∧
    binaryDecode [0x00, 0x00, 0x30, 0x39] cntVField = .float (mkRat 12345 1) ∧
    binaryDecode [0xFF, 0xFF, 0xFF, 0xFE] cntField = .int (-2) ∧
    binaryDecode [0x00, 0x00, 0x00, 0x02] cntField = .int 2 := by
  refine ⟨?_, rfl, rfl, rfl⟩
  simp only [beSigned, beUnsigned, List.foldl, List.length_cons, List.length_nil]
  norm_num
  rw [if_pos (by omega)]
  omega

/-- C6 witness: the amended theorem at byte value 0 (`FF 00` is −256). -/
theorem c6_binary_amended_witness :
    (0 : Nat) < 256 ∧ beSigned [0xFF, 0] = (0 : Int) - 256 :=
  ⟨by decide, (c6_binary_amended 0 (by decide)).1⟩

/-! ## C7 — COMP-3 sign and digit validation -/

/-- C7 counterexample. Claim: bytes `01 2A 4C` for `PIC S9(5) COMP-3` produce
a decode error (non-digit nibble `A`), and a sign nibble outside
`{A,B,C,D,E,F}` is a decode error. Code: `str()` renders the nibble `A` as
the two characters `"10"`, giving the digit text `"012104"` and the value
+12104 with NO error; and the digit sign nibble `0` (`01 23 40`) decodes to
+1234 with no error either. -/
theorem c7_packed_sign_counterexample :
    packedDecode [0x01, 0x2A, 0x4C] qtyField = some (.int 12104) ∧
    some (Value.int 12104) ≠ (none : Option Value) ∧
    packedDecode [0x01, 0x23, 0x40] qtyField = some (.int 1234) := by
  exact ⟨rfl, by simp, rfl⟩

/-- C7 amended. The packed decoder treats ONLY the sign nibbles `B` and `D`
as negative and every other final low nibble (including the digits `0..9`) as
positive; digit-position nibbles above 9 are rendered as their decimal value
(`A` → `"10"`) and concatenated, and no decode error exists: `01 2A 4C`
decodes to +12104, while `01 23 4C` and `01 23 4D` give ±1234. -/
theorem c7_packed_sign_amended :
    (∀ s : Nat, s < 16 →
      packedDecode [0x01, 0x23, 0x40 + s] qtyField =
        some (.int (if s = 11 ∨ s = 13 then -1234 else 1234))) ∧
    packedDecode [0x01, 0x2A, 0x4C] qtyField = some (.int 12104) ∧
    packedDecode [0x01, 0x23, 0x4C] qtyField = some (.int 1234) ∧
    packedDecode [0x01, 0x23, 0x4D] qtyField = some (.int (-1234)) := by
  refine ⟨?_, rfl, rfl, rfl⟩
  intro s hs
  interval_cases s <;> rfl

/-- C7 witness: the amended theorem's universal part at the sign nibble `C`. -/
theorem c7_packed_sign_amended_witness :
    packedDecode [0x01, 0x23, 0x40 + 12] qtyField =
      some (.int (if (12 : Nat) = 11 ∨ (12 : Nat) = 13 then -1234 else 1234)) :=
  c7_packed_sign_amended.1 12 (by decide)

/-! ## C8 — group sizes and REDEFINES -/

/-- C8 counterexample. Claim: `size(group)` is the sum over the non-REDEFINES
children only. Code: `calculate_field_sizes` sums over ALL children, so a
group holding `A PIC XXXX` (size 4) and `B REDEFINES A PIC 9999` (size 4) is
assigned size 8, while the non-REDEFINES sum is 4. -/
theorem c8_group_size_counterexample :
    calculate_field_sizes grpG = 8 ∧
    ((grpG.children.filter (fun c => c.info.redefines = none)).map
      calculate_field_sizes).sum = 4 ∧
    (8 : Nat) ≠ 4 := by
  exact ⟨rfl, rfl, by decide⟩

/-- Sum lemma for the mutual recursion. -/
theorem childSizesSum_eq (fs : List Field) :
    childSizesSum fs = (fs.map calculate_field_sizes).sum := by
  induction fs with
  | nil => rfl
  | cons f fs ih => simp [childSizesSum, ih]

/-- C8 amended. For every group node with a nonempty child list,
`calculate_field_sizes` assigns the sum of the sizes of ALL children —
REDEFINES children contribute their full size, not zero. -/
theorem c8_group_size_amended (info : FieldInfo) (children : List Field)
    (h1 : info.isGroup = true) (h2 : children ≠ []) :
    calculate_field_sizes (.mk info children) =
      (children.map calculate_field_sizes).sum := by
  have hne : children.isEmpty = false := by
    cases children with
    | nil => exact absurd rfl h2
    | cons c cs => rfl
  rw [calculate_field_sizes]
  simp [h1, hne, childSizesSum_eq]

/-- C8 witness: the amended theorem at the `A`/`B REDEFINES A` group. -/
theorem c8_group_size_amended_witness :
    calculate_field_sizes (.mk { level := 1, name := "G", isGroup := true }
        [fieldA, fieldB]) =
      ([fieldA, fieldB].map calculate_field_sizes).sum :=
  c8_group_size_amended { level := 1, name := "G", isGroup := true }
    [fieldA, fieldB] rfl (by simp)

/-! ## C9 — validator numeric dispatch -/

/-- C9 counterexample. Claim: first pass `123.45` against second pass `12345`
is dispatched to the numeric classifier and comes out `scale_error` with
factor `10^2`. Code: `classify_error` checks `type(value1) != type(value2)`
BEFORE any numeric test; normalization leaves `123.45` a float and `12345` an
int, so the comparison reports `type_mismatch`, never reaching the numeric
classifier. -/
theorem c9_classifier_counterexample :
    compare_leaf (.float (mkRat 12345 100)) (.int 12345) (mkRat 1 100) =
      some .typeMismatch ∧
    ErrClass.typeMismatch ≠ ErrClass.scaleError 2 := by
  exact ⟨rfl, by decide⟩

/-- C9 amended. The numeric classifier is reached only when both normalized
values have the SAME Python type (both floats or both ints); on such pairs
the classes are tried in the claimed order (sign error first even when the
difference is exactly 1; off-by-one before precision loss whatever the
tolerance), and on the same-type pair 123.45 vs 12345 the result is indeed
`scale_error` with factor `10^2`; the mixed-type pair of the claim's example
is reported `type_mismatch`. -/
theorem c9_classifier_amended :
    (∀ a b tol : ℚ, classify_error (.float a) (.float b) tol =
      classify_numeric_error a b tol) ∧
    (∀ (m n : Int) (tol : ℚ), classify_error (.int m) (.int n) tol =
      classify_numeric_error (mkRat m 1) (mkRat n 1) tol) ∧
    (∀ tol : ℚ, classify_numeric_error (mkRat (-1) 2) (mkRat 1 2) tol = .signError) ∧
    (∀ tol : ℚ, classify_numeric_error (mkRat 5 1) (mkRat 4 1) tol = .offByOne) ∧
    classify_numeric_error (mkRat 12345 100) (mkRat 12345 1) (mkRat 1 100) =
      .scaleError 2 ∧
    compare_leaf (.float (mkRat 12345 100)) (.int 12345) (mkRat 1 100) =
      some .typeMismatch := by
  refine ⟨fun a b tol => rfl, fun m n tol => rfl, ?_, ?_, rfl, rfl⟩
  · intro tol
    unfold classify_numeric_error
    rw [if_pos (by decide)]
  · intro tol
    unfold classify_numeric_error
    rw [if_neg (by decide), if_pos (by decide)]

/-! ## C10 — totality of extraction -/

end LegacyConverter
